import Mathlib

/-!
Shallow embedding of `src/Scrapper/app.py` (Google Maps scraper).

The source has three parts the claims are about:

* `scrape_google_maps(keyword, location, max_results, headless)` — opens a
  Chrome session, navigates to a search URL, then runs a scroll loop:
  `while len(businesses) < max_results and scroll_attempts < 5` it scrolls,
  reads the page height (incrementing `scroll_attempts` when the height did
  not change, resetting it to 0 otherwise), waits for the visible listing
  cards (`WebDriverWait(driver, 10).until(presence_of_all_elements_located)` —
  which raises `TimeoutException` when no card is ever present), and then
  extracts `cards[len(businesses):]`, appending one record per card whose
  name text is non-empty, breaking once `len(businesses) >= max_results`.
  `driver.quit()` runs only on the normal return path (there is no
  try/finally), after which `businesses` is returned.

* `extract_element(parent, selector)` / `extract_attribute(parent, selector,
  attribute)` — return the element text / attribute, or `None` on any lookup
  failure.

* `LicenseManager.generate_key` / `validate_key` — key/expiry store.

The selenium driver is modelled as a `Driver`: a value describing what the
(already opened) session reports on the i-th loop iteration — the page
height after the i-th scroll, and the list of visible content units.  A
content unit (`Card`) carries the outcome of each per-field selector lookup
(`none` models a lookup that raises / finds nothing).  `navOk = false`
models `driver.get` raising after the session was opened.  One iteration of
the `while` loop is the `step` function on a `Config`; `run d m n` is the
state after `n` iterations.  Whether `driver.quit()` has executed is
recorded in the `closed` flag of the terminal configurations.
-/

namespace Scrapper

/-- One content unit (`div[role='article']` card).  Each field holds the
result of the corresponding selector lookup inside the card: `none` when
the lookup raises or the element is absent, `some s` when it yields `s`. -/
structure Card where
  nameText : Option String
  rating : Option String
  reviews : Option String
  category : Option String
  address : Option String
  websiteHref : Option String
  phone : Option String
deriving DecidableEq

/-- One output record (`business_data` dict in the source): `Name` is
mandatory, the six other fields are optional (`None` = unset). -/
structure BusinessRecord where
  Name : String
  Rating : Option String
  Reviews : Option String
  Category : Option String
  Address : Option String
  Website : Option String
  Phone : Option String
deriving DecidableEq

/-- `extract_element(parent, selector)`: `try: return ...text except: return
None`.  The lookup outcome is the argument; the function never raises. -/
def extract_element (lookup : Option String) : Option String :=
  match lookup with
  | some t => some t
  | none => none

/-- `extract_attribute(parent, selector, attribute)`: same shape as
`extract_element` but reading an attribute value. -/
def extract_attribute (lookup : Option String) : Option String :=
  match lookup with
  | some t => some t
  | none => none

/-- The per-card body of the extraction `for` loop (lines 168-187):
`name = try ... except None`; `if not name: continue` (Python: `None` and
`""` are falsy); otherwise build the `business_data` record. -/
def extractRecord (c : Card) : Option BusinessRecord :=
  match c.nameText with
  | none => none
  | some s =>
    if s = "" then none
    else
      some { Name := s
             Rating := extract_element c.rating
             Reviews := extract_element c.reviews
             Category := extract_element c.category
             Address := extract_element c.address
             Website := extract_attribute c.websiteHref
             Phone := extract_element c.phone }

/-- The session driver, as the loop observes it: `heights i` is the
`document.body.scrollHeight` read on iteration `i` (after the i-th scroll),
`cards i` the list of visible units fetched on iteration `i`,
`initialHeight` the height read once before the loop.  `navOk = false`
models `driver.get` raising after the session was opened. -/
structure Driver where
  navOk : Bool
  initialHeight : Nat
  heights : Nat → Nat
  cards : Nat → List Card

/-- Errors that escape `scrape_google_maps`: a navigation failure, or the
`TimeoutException` that `WebDriverWait(driver, 10).until(
presence_of_all_elements_located(...))` raises when no matching element
ever appears. -/
inductive ScrapeError where
  | navFailure
  | waitTimeout
deriving DecidableEq

/-- The loop's mutable state: `businesses`, `lastHeight`, `scrollAttempts`
(source names), plus the iteration counter that indexes the driver. -/
structure LoopState where
  businesses : List BusinessRecord
  lastHeight : Nat
  scrollAttempts : Nat
  iter : Nat
deriving DecidableEq

/-- A configuration of `scrape_google_maps` after some number of loop
iterations.  `closed` records whether `driver.quit()` has executed: the
source calls it only on the normal return path (no try/finally), so a
propagating exception leaves it `false`. -/
inductive Config where
  | running (s : LoopState)
  | finished (s : LoopState) (closed : Bool)
  | failed (e : ScrapeError) (closed : Bool)
deriving DecidableEq

/-- `WebDriverWait(driver, 10).until(EC.presence_of_all_elements_located(...))`:
returns the located elements once at least one is present, raises
`TimeoutException` when the driver keeps reporting none. -/
def waitCards (cs : List Card) : Except ScrapeError (List Card) :=
  match cs with
  | [] => Except.error ScrapeError.waitTimeout
  | c :: rest => Except.ok (c :: rest)

/-- The inner `for card in cards[len(businesses):]` loop body (lines
168-190): append the extracted record when the name is present, and
`break` as soon as `len(businesses) >= max_results`. -/
def processCards (maxResults : Nat) (acc : List BusinessRecord) :
    List Card → List BusinessRecord
  | [] => acc
  | c :: rest =>
    match extractRecord c with
    | none => processCards maxResults acc rest
    | some r =>
      if maxResults ≤ (acc ++ [r]).length then acc ++ [r]
      else processCards maxResults (acc ++ [r]) rest

/-- One iteration of the `while len(businesses) < max_results and
scroll_attempts < 5` loop (lines 152-190): scroll, read the new height,
update `scroll_attempts` and `last_height`, wait for the visible cards
(possibly raising), and extract the slice `cards[len(businesses):]`.
When the `while` condition fails, `driver.quit()` runs and the accumulated
list is returned. -/
def step (d : Driver) (maxResults : Nat) : Config → Config
  | Config.running s =>
    if s.businesses.length < maxResults ∧ s.scrollAttempts < 5 then
      match waitCards (d.cards s.iter) with
      | Except.error e => Config.failed e false
      | Except.ok cs =>
        Config.running
          { businesses := processCards maxResults s.businesses (cs.drop s.businesses.length)
            lastHeight := d.heights s.iter
            scrollAttempts :=
              if d.heights s.iter = s.lastHeight then s.scrollAttempts + 1 else 0
            iter := s.iter + 1 }
    else Config.finished s true
  | c => c

/-- The state of `scrape_google_maps` just before the loop (lines 140-150):
the session is open; a navigation failure raises with the session still
open; otherwise `businesses = []`, `last_height` is the initial height read,
`scroll_attempts = 0`. -/
def initConfig (d : Driver) : Config :=
  if d.navOk then
    Config.running
      { businesses := [], lastHeight := d.initialHeight, scrollAttempts := 0, iter := 0 }
  else Config.failed ScrapeError.navFailure false

/-- The configuration of `scrape_google_maps` after `n` loop iterations. -/
def run (d : Driver) (maxResults : Nat) : Nat → Config
  | 0 => initConfig d
  | n + 1 => step d maxResults (run d maxResults n)

/-- The accumulated `businesses` list of a configuration (what the caller
receives on the normal return path). -/
def Config.records : Config → List BusinessRecord
  | Config.running s => s.businesses
  | Config.finished s _ => s.businesses
  | Config.failed _ _ => []

/-- The `scroll_attempts` counter of a configuration. -/
def Config.attempts : Config → Nat
  | Config.running s => s.scrollAttempts
  | Config.finished s _ => s.scrollAttempts
  | Config.failed _ _ => 0

/-- The iteration index of a configuration (how many loop bodies ran). -/
def Config.iterIdx : Config → Nat
  | Config.running s => s.iter
  | Config.finished s _ => s.iter
  | Config.failed _ _ => 0

/-- The `last_height` variable of a configuration. -/
def Config.lastH : Config → Nat
  | Config.running s => s.lastHeight
  | Config.finished s _ => s.lastHeight
  | Config.failed _ _ => 0

/-- Whether the loop is still running. -/
def Config.isRunning : Config → Bool
  | Config.running _ => true
  | _ => false

/-- Whether the loop has returned normally. -/
def Config.isFinished : Config → Bool
  | Config.finished _ _ => true
  | _ => false

/-- Whether the scrape has raised. -/
def Config.isFailed : Config → Bool
  | Config.failed _ _ => true
  | _ => false

/-- Whether `driver.quit()` has executed. -/
def Config.sessionClosed : Config → Bool
  | Config.running _ => false
  | Config.finished _ b => b
  | Config.failed _ b => b

/-- The card list the most recent extraction pass read: `cards` of the
previous iteration (none before the first iteration). -/
def prevCards (d : Driver) : Nat → List Card
  | 0 => []
  | i + 1 => d.cards i

/-- `f"{keyword} in {location}".replace(' ', '%20')` at the character
level: Python's `str.replace` with the one-character pattern `' '` rewrites
each space, left to right, to `%20`. -/
def replaceSpaces : List Char → List Char
  | [] => []
  | c :: cs => (if c = ' ' then ['%', '2', '0'] else [c]) ++ replaceSpaces cs

/-- Lines 145-146: the URL passed to `driver.get`,
`f"https://www.google.com/maps/search/{search_query}/"` where
`search_query = f"{keyword} in {location}".replace(' ', '%20')`. -/
def search_url (keyword location : String) : String :=
  "https://www.google.com/maps/search/" ++
    String.mk (replaceSpaces (keyword ++ " in " ++ location).data) ++ "/"

/-- The spec's wording of the query encoding (§6): the string
`"keyword in location"` with every space percent-encoded as `%20`. -/
def percentEncodeSpacesL (cs : List Char) : List Char :=
  (cs.map fun c => if c = ' ' then ['%', '2', '0'] else [c]).flatten

/-- Seconds-since-epoch model of `datetime.now()`; `dayOf t` is the
calendar date (day number) that `strftime('%Y-%m-%d')` prints and
`strptime(..., '%Y-%m-%d')` parses back to midnight (`dayOf t * 86400`). -/
def dayOf (t : Nat) : Nat := t / 86400

/-- `LicenseManager.generate_key(duration_days)` (lines 37-44): the expiry
is the date of `now + duration_days` days; the key (sha256/base64 of an
`os.urandom` string — opaque here, passed in as `encodedKey`) is stored
against that expiry date; both are returned.  The store is the
`self.licenses` dict, modelled as a lookup function. -/
def generate_key (licenses : String → Option Nat) (now duration : Nat)
    (encodedKey : String) : String × Nat × (String → Option Nat) :=
  let expirationDay := dayOf (now + duration * 86400)
  (encodedKey, expirationDay, fun k => if k = encodedKey then some expirationDay else licenses k)

/-- `LicenseManager.validate_key(key)` (lines 46-50): look the key up; when
present compare `datetime.now() < strptime(expiry, '%Y-%m-%d')` (midnight
of the expiry date) and return the expiry; otherwise `(False, None)`. -/
def validate_key (licenses : String → Option Nat) (now : Nat) (key : String) :
    Bool × Option Nat :=
  match licenses key with
  | some e => (decide (now < e * 86400), some e)
  | none => (false, none)

/-! ### Concrete fixtures (drivers and cards used in witnesses) -/

/-- A card whose name lookup yields `"A"` and all other lookups fail. -/
def cardA : Card :=
  { nameText := some "A", rating := none, reviews := none, category := none
    address := none, websiteHref := none, phone := none }

/-- A card whose name lookup yields `"B"` and all other lookups fail. -/
def cardB : Card :=
  { nameText := some "B", rating := none, reviews := none, category := none
    address := none, websiteHref := none, phone := none }

/-- A card whose name lookup fails (e.g. a loading placeholder). -/
def cardNoName : Card :=
  { nameText := none, rating := none, reviews := none, category := none
    address := none, websiteHref := none, phone := none }

/-- Fixture: constant height, three named units visible from the start. -/
def fixtureCap : Driver :=
  { navOk := true, initialHeight := 10, heights := fun _ => 10
    cards := fun _ =>
      [cardA, cardB,
       { nameText := some "C", rating := none, reviews := none, category := none
         address := none, websiteHref := none, phone := none }] }

/-- Fixture: the visible list only grows (`[cardNoName, cardA]`, then
`[cardNoName, cardA, cardB]` forever), and its first unit has no name. -/
def fixtureNoNameGrow : Driver :=
  { navOk := true, initialHeight := 10, heights := fun _ => 10
    cards := fun i => if i = 0 then [cardNoName, cardA] else [cardNoName, cardA, cardB] }

/-- Fixture: height constant, no unit ever visible. -/
def fixtureEmpty : Driver :=
  { navOk := true, initialHeight := 10, heights := fun _ => 10, cards := fun _ => [] }

/-- Fixture: navigation raises after the session is opened. -/
def fixtureNavFail : Driver :=
  { navOk := false, initialHeight := 10, heights := fun _ => 10, cards := fun _ => [] }

/-- Fixture: constant height, a single named unit always visible. -/
def fixtureOneCard : Driver :=
  { navOk := true, initialHeight := 7, heights := fun _ => 7, cards := fun _ => [cardA] }

/-- Fixture: constant height, a single nameless unit always visible. -/
def fixtureNameless : Driver :=
  { navOk := true, initialHeight := 3, heights := fun _ => 3, cards := fun _ => [cardNoName] }

example : (run fixtureCap 2 2).isFinished = true := by decide
example : (run fixtureCap 2 2).records.length = 2 := by decide
example : (run fixtureNoNameGrow 10 2).records.map (fun r => r.Name) = ["A", "A", "B"] := by
  decide
example : run fixtureEmpty 5 1 = Config.failed ScrapeError.waitTimeout false := by decide
example : run fixtureNavFail 5 0 = Config.failed ScrapeError.navFailure false := by decide
example : (run fixtureNameless 3 5).isRunning = true := by decide
example : (run fixtureNameless 3 5).attempts = 5 := by decide
example : (run fixtureNameless 3 6).isFinished = true := by decide
example : (run fixtureOneCard 5 1).records =
    [{ Name := "A", Rating := none, Reviews := none, Category := none,
       Address := none, Website := none, Phone := none }] := by decide

/-! ### General lemmas about the loop -/

lemma run_succ (d : Driver) (m n : Nat) :
    run d m (n + 1) = step d m (run d m n) := rfl

lemma run_inv (d : Driver) (m : Nat) (P : Config → Prop)
    (h0 : P (initConfig d)) (hstep : ∀ c, P c → P (step d m c)) :
    ∀ n, P (run d m n) := by
  intro n
  induction n with
  | zero => exact h0
  | succ n ih => exact hstep _ ih

lemma step_of_not_running (d : Driver) (m : Nat) (c : Config)
    (h : c.isRunning = false) : step d m c = c := by
  cases c with
  | running s => simp [Config.isRunning] at h
  | finished s b => rfl
  | failed e b => rfl

lemma processCards_exists_append (m : Nat) :
    ∀ (cs : List Card) (acc : List BusinessRecord),
      ∃ t, processCards m acc cs = acc ++ t := by
  intro cs
  induction cs with
  | nil => intro acc; exact ⟨[], by simp [processCards]⟩
  | cons c rest ih =>
    intro acc
    cases hc : extractRecord c with
    | none => simpa [processCards, hc] using ih acc
    | some r =>
      by_cases hcap : m ≤ acc.length + 1
      · exact ⟨[r], by simp [processCards, hc, hcap]⟩
      · obtain ⟨t, ht⟩ := ih (acc ++ [r])
        refine ⟨[r] ++ t, ?_⟩
        rw [show processCards m acc (c :: rest) = processCards m (acc ++ [r]) rest by
          simp [processCards, hc, hcap], ht]
        simp

lemma processCards_length_le (m : Nat) :
    ∀ (cs : List Card) (acc : List BusinessRecord), acc.length < m →
      (processCards m acc cs).length ≤ m := by
  intro cs
  induction cs with
  | nil => intro acc h; simpa [processCards] using Nat.le_of_lt h
  | cons c rest ih =>
    intro acc h
    cases hc : extractRecord c with
    | none => simpa [processCards, hc] using ih acc h
    | some r =>
      by_cases hcap : m ≤ acc.length + 1
      · rw [show processCards m acc (c :: rest) = acc ++ [r] by
          simp [processCards, hc, hcap]]
        simp
        omega
      · rw [show processCards m acc (c :: rest) = processCards m (acc ++ [r]) rest by
          simp [processCards, hc, hcap]]
        exact ih (acc ++ [r]) (by simp; omega)

lemma step_records_le (d : Driver) (m : Nat) (c : Config)
    (h : c.records.length ≤ m) : (step d m c).records.length ≤ m := by
  cases c with
  | running s =>
    by_cases hcond : s.businesses.length < m ∧ s.scrollAttempts < 5
    · cases hcs : d.cards s.iter with
      | nil => simp [step, hcond, waitCards, hcs, Config.records]
      | cons c0 rest =>
        simp only [step, if_pos hcond, hcs, waitCards, Config.records]
        exact processCards_length_le m _ _ hcond.1
    · simpa [step, hcond, Config.records] using h
  | finished s b => exact h
  | failed e b => exact h

lemma records_length_le (d : Driver) (m : Nat) :
    ∀ n, (run d m n).records.length ≤ m := by
  refine run_inv d m (fun c => c.records.length ≤ m) ?_ (step_records_le d m)
  unfold initConfig
  by_cases hn : d.navOk <;> simp [hn, Config.records]

lemma step_attempts_le (d : Driver) (m : Nat) (c : Config)
    (h : c.attempts ≤ 5) : (step d m c).attempts ≤ 5 := by
  cases c with
  | running s =>
    by_cases hcond : s.businesses.length < m ∧ s.scrollAttempts < 5
    · cases hcs : d.cards s.iter with
      | nil => simp [step, hcond, waitCards, hcs, Config.attempts]
      | cons c0 rest =>
        simp only [step, if_pos hcond, hcs, waitCards, Config.attempts]
        have := hcond.2
        split <;> omega
    · simpa [step, hcond, Config.attempts] using h
  | finished s b => exact h
  | failed e b => exact h

lemma attempts_le (d : Driver) (m : Nat) :
    ∀ n, (run d m n).attempts ≤ 5 := by
  refine run_inv d m (fun c => c.attempts ≤ 5) ?_ (step_attempts_le d m)
  unfold initConfig
  by_cases hn : d.navOk <;> simp [hn, Config.attempts]

lemma finished_inv (d : Driver) (m : Nat) :
    ∀ n s b, run d m n = Config.finished s b →
      b = true ∧ ¬(s.businesses.length < m ∧ s.scrollAttempts < 5) := by
  refine fun n => run_inv d m (fun c => ∀ s b, c = Config.finished s b →
      b = true ∧ ¬(s.businesses.length < m ∧ s.scrollAttempts < 5)) ?_ ?_ n
  · unfold initConfig
    by_cases hn : d.navOk <;> simp [hn]
  · intro c hP
    cases c with
    | running s' =>
      intro s b h
      by_cases hcond : s'.businesses.length < m ∧ s'.scrollAttempts < 5
      · cases hcs : d.cards s'.iter with
        | nil => simp [step, hcond, waitCards, hcs] at h
        | cons c0 rest => simp [step, hcond, waitCards, hcs] at h
      · simp only [step, if_neg hcond] at h
        obtain ⟨hs, hb⟩ := Config.finished.inj h
        subst hs
        exact ⟨hb.symm, hcond⟩
    | finished s' b' =>
      intro s b h
      exact hP s b h
    | failed e b' =>
      intro s b h
      simp [step] at h

lemma isFinished_elim (c : Config) (h : c.isFinished = true) :
    ∃ s b, c = Config.finished s b := by
  cases c with
  | running s => simp [Config.isFinished] at h
  | finished s b => exact ⟨s, b, rfl⟩
  | failed e b => simp [Config.isFinished] at h

lemma step_records_extend (d : Driver) (m : Nat) (c : Config)
    (h : (step d m c).isFailed = false) :
    ∃ t, (step d m c).records = c.records ++ t := by
  cases c with
  | running s =>
    by_cases hcond : s.businesses.length < m ∧ s.scrollAttempts < 5
    · cases hcs : d.cards s.iter with
      | nil => simp [step, hcond, waitCards, hcs, Config.isFailed] at h
      | cons c0 rest =>
        simp only [step, if_pos hcond, hcs, waitCards, Config.records]
        exact processCards_exists_append m _ _
    · exact ⟨[], by simp [step, hcond, Config.records]⟩
  | finished s b => exact ⟨[], by simp [step, Config.records]⟩
  | failed e b => simp [step, Config.isFailed] at h

lemma records_extend (d : Driver) (m k : Nat)
    (hk : (run d m (k + 1)).isFailed = false) :
    ∃ t, (run d m (k + 1)).records = (run d m k).records ++ t := by
  rw [run_succ] at hk ⊢
  exact step_records_extend d m _ hk

lemma finished_closed (d : Driver) (m : Nat) :
    ∀ n, (run d m n).isFinished = true → (run d m n).sessionClosed = true := by
  refine run_inv d m (fun c => c.isFinished = true → c.sessionClosed = true) ?_ ?_
  · unfold initConfig
    by_cases hn : d.navOk <;> simp [hn, Config.isFinished, Config.sessionClosed]
  · intro c hP
    cases c with
    | running s =>
      by_cases hcond : s.businesses.length < m ∧ s.scrollAttempts < 5
      · cases hcs : d.cards s.iter with
        | nil => simp [step, hcond, waitCards, hcs, Config.isFinished]
        | cons c0 rest => simp [step, hcond, waitCards, hcs, Config.isFinished]
      · simp [step, hcond, Config.sessionClosed]
    | finished s b => exact hP
    | failed e b => exact hP

lemma failed_not_closed (d : Driver) (m : Nat) :
    ∀ n, (run d m n).isFailed = true → (run d m n).sessionClosed = false := by
  refine run_inv d m (fun c => c.isFailed = true → c.sessionClosed = false) ?_ ?_
  · unfold initConfig
    by_cases hn : d.navOk <;> simp [hn, Config.isFailed, Config.sessionClosed]
  · intro c hP
    cases c with
    | running s =>
      by_cases hcond : s.businesses.length < m ∧ s.scrollAttempts < 5
      · cases hcs : d.cards s.iter with
        | nil => simp [step, hcond, waitCards, hcs, Config.sessionClosed]
        | cons c0 rest => simp [step, hcond, waitCards, hcs, Config.isFailed]
      · simp [step, hcond, Config.isFailed]
    | finished s b => exact hP
    | failed e b => exact hP

/-! ### Further lemmas: stagnation runs, record membership -/

lemma stagnant_run (d : Driver) (m : Nat)
    (hh : ∀ i, d.heights i = d.initialHeight)
    (hc : ∀ i, d.cards i ≠ [])
    (hnav : d.navOk = true)
    (hrec : ∀ k, k ≤ 5 → (run d m k).records.length < m) :
    ∀ k, k ≤ 5 → ∃ s, run d m k = Config.running s ∧
      s.scrollAttempts = k ∧ s.iter = k ∧ s.lastHeight = d.initialHeight := by
  intro k
  induction k with
  | zero =>
    intro _
    refine ⟨{ businesses := [], lastHeight := d.initialHeight,
              scrollAttempts := 0, iter := 0 }, ?_, rfl, rfl, rfl⟩
    show initConfig d = _
    simp [initConfig, hnav]
  | succ k ih =>
    intro hk5
    obtain ⟨s, hrun, hatt, hiter, hlast⟩ := ih (Nat.le_of_succ_le hk5)
    have hlen : s.businesses.length < m := by
      have h := hrec k (Nat.le_of_succ_le hk5)
      rw [hrun] at h
      simpa [Config.records] using h
    have hcond : s.businesses.length < m ∧ s.scrollAttempts < 5 := ⟨hlen, by omega⟩
    cases hcs : d.cards s.iter with
    | nil => exact absurd hcs (hc s.iter)
    | cons c0 rest =>
      have hstep : run d m (k + 1) = Config.running
          { businesses := processCards m s.businesses ((c0 :: rest).drop s.businesses.length)
            lastHeight := d.heights s.iter
            scrollAttempts :=
              if d.heights s.iter = s.lastHeight then s.scrollAttempts + 1 else 0
            iter := s.iter + 1 } := by
        rw [run_succ, hrun]
        simp [step, hcond, hcs, waitCards]
      refine ⟨_, hstep, ?_, ?_, ?_⟩
      · simp [hh s.iter, hlast, hatt]
      · simp [hiter]
      · simp [hh s.iter]

lemma mem_processCards (m : Nat) :
    ∀ (cs : List Card) (acc : List BusinessRecord) (r : BusinessRecord),
      r ∈ processCards m acc cs → r ∈ acc ∨ ∃ c ∈ cs, extractRecord c = some r := by
  intro cs
  induction cs with
  | nil => intro acc r h; exact Or.inl (by simpa [processCards] using h)
  | cons c rest ih =>
    intro acc r h
    cases hc : extractRecord c with
    | none =>
      rw [show processCards m acc (c :: rest) = processCards m acc rest by
        simp [processCards, hc]] at h
      rcases ih acc r h with h1 | ⟨c1, hc1, he⟩
      · exact Or.inl h1
      · exact Or.inr ⟨c1, List.mem_cons_of_mem _ hc1, he⟩
    | some r0 =>
      by_cases hcap : m ≤ acc.length + 1
      · rw [show processCards m acc (c :: rest) = acc ++ [r0] by
          simp [processCards, hc, hcap]] at h
        rcases List.mem_append.mp h with h1 | h1
        · exact Or.inl h1
        · have hr0 : r = r0 := by simpa using h1
          exact Or.inr ⟨c, List.mem_cons_self _ _, by rw [hc, hr0]⟩
      · rw [show processCards m acc (c :: rest) = processCards m (acc ++ [r0]) rest by
          simp [processCards, hc, hcap]] at h
        rcases ih (acc ++ [r0]) r h with h1 | ⟨c1, hc1, he⟩
        · rcases List.mem_append.mp h1 with h2 | h2
          · exact Or.inl h2
          · have hr0 : r = r0 := by simpa using h2
            exact Or.inr ⟨c, List.mem_cons_self _ _, by rw [hc, hr0]⟩
        · exact Or.inr ⟨c1, List.mem_cons_of_mem _ hc1, he⟩

lemma extractRecord_name (c : Card) (r : BusinessRecord)
    (h : extractRecord c = some r) : r.Name ≠ "" := by
  unfold extractRecord at h
  cases hn : c.nameText with
  | none => rw [hn] at h; simp at h
  | some s =>
    rw [hn] at h
    by_cases hs : s = ""
    · simp [hs] at h
    · simp only [if_neg hs, Option.some.injEq] at h
      rw [← h]
      simpa using hs

lemma records_name_nonempty (d : Driver) (m : Nat) :
    ∀ n r, r ∈ (run d m n).records → r.Name ≠ "" := by
  intro n
  refine run_inv d m (fun c => ∀ r, r ∈ c.records → r.Name ≠ "") ?_ ?_ n
  · unfold initConfig
    by_cases hn : d.navOk <;> simp [hn, Config.records]
  · intro c hP
    cases c with
    | running s =>
      intro r hr
      by_cases hcond : s.businesses.length < m ∧ s.scrollAttempts < 5
      · cases hcs : d.cards s.iter with
        | nil => simp [step, hcond, waitCards, hcs, Config.records] at hr
        | cons c0 rest =>
          rw [show step d m (Config.running s) = Config.running
              { businesses :=
                  processCards m s.businesses ((c0 :: rest).drop s.businesses.length)
                lastHeight := d.heights s.iter
                scrollAttempts :=
                  if d.heights s.iter = s.lastHeight then s.scrollAttempts + 1 else 0
                iter := s.iter + 1 } by simp [step, hcond, hcs, waitCards]] at hr
          simp only [Config.records] at hr
          rcases mem_processCards m _ _ r hr with h1 | ⟨c1, _, he⟩
          · exact hP r (by simpa [Config.records] using h1)
          · exact extractRecord_name c1 r he
      · refine hP r ?_
        simpa [step, hcond, Config.records] using hr
    | finished s b => exact hP
    | failed e b => exact hP

/-! ### Claim theorems -/

/-- Claim C1: for every scrape with MaxResults = `m`, the returned sequence
has length at most `m`; on normal completion either exactly `m` records
accumulated (cap exit, the loop stops once exactly `m` records have been
appended) or the stagnation counter reached its threshold 5 with fewer than
`m` records — so the length equals `m` whenever stagnation did not terminate
the loop first.  Records are emitted in extraction order: each iteration
appends to the accumulated list, so the list after iteration `k + 1` begins
with the list after iteration `k`. -/
theorem scrape_respects_cap (d : Driver) (m n k : Nat)
    (hfin : (run d m n).isFinished = true)
    (hk : (run d m (k + 1)).isFailed = false) :
    (run d m n).records.length ≤ m ∧
    ((run d m n).records.length = m ∨
      ((run d m n).attempts = 5 ∧ (run d m n).records.length < m)) ∧
    (run d m (k + 1)).records.take ((run d m k).records.length) =
      (run d m k).records := by
  obtain ⟨s, b, hsb⟩ := isFinished_elim _ hfin
  have hle := records_length_le d m n
  have hatt := attempts_le d m n
  have hinv := (finished_inv d m n s b hsb).2
  refine ⟨hle, ?_, ?_⟩
  · rw [hsb] at hle hatt ⊢
    simp only [Config.records, Config.attempts] at hle hatt ⊢
    by_cases hlenm : s.businesses.length = m
    · exact Or.inl hlenm
    · have hlt : s.businesses.length < m := lt_of_le_of_ne hle hlenm
      have h5 : ¬ s.scrollAttempts < 5 := fun h => hinv ⟨hlt, h⟩
      exact Or.inr ⟨le_antisymm hatt (not_lt.mp h5), hlt⟩
  · obtain ⟨t, ht⟩ := records_extend d m k hk
    rw [ht]
    exact List.take_left _ _

/-- Witness for `scrape_respects_cap`: a driver always showing three named
units, cap 2 — the loop returns exactly 2 records after 2 iterations. -/
theorem scrape_respects_cap_witness :
    (run fixtureCap 2 2).records.length ≤ 2 ∧
    ((run fixtureCap 2 2).records.length = 2 ∨
      ((run fixtureCap 2 2).attempts = 5 ∧ (run fixtureCap 2 2).records.length < 2)) ∧
    (run fixtureCap 2 (0 + 1)).records.take ((run fixtureCap 2 0).records.length) =
      (run fixtureCap 2 0).records :=
  scrape_respects_cap fixtureCap 2 2 0 (by decide) (by decide)

/-- Claim C2 counterexample: `fixtureNoNameGrow` shows `[cardNoName, cardA]`
on iteration 0 and `[cardNoName, cardA, cardB]` afterwards — the visible
list only grows and is never reordered.  Yet the scrape's output after two
iterations is `["A", "A", "B"]`: the unit `cardA` is examined and extracted
twice, because the loop slices `cards[len(businesses):]` — the count of
accumulated records, which did NOT advance for the examined-but-skipped
nameless unit — so the claim "each content unit is examined at most once
(the examined count advances whether or not a record was produced)" is
false of the code. -/
theorem dedup_counterexample :
    (fixtureNoNameGrow.cards 1).take (fixtureNoNameGrow.cards 0).length =
      fixtureNoNameGrow.cards 0 ∧
    (fixtureNoNameGrow.cards 2) = (fixtureNoNameGrow.cards 1) ∧
    (run fixtureNoNameGrow 10 2).records.map (fun r => r.Name) = ["A", "A", "B"] := by
  decide

/-- Claim C3 counterexample: a session driver whose height never changes and
that reports zero visible units has fewer than MaxResults records at every
point, yet the loop never reaches Done after 5 no-growth attempts: the unit
wait times out and raises on the very first iteration. -/
theorem stagnation_claim_counterexample :
    (run fixtureEmpty 5 1).isFailed = true ∧
    (run fixtureEmpty 5 6).isFinished = false ∧
    (run fixtureEmpty 5 6).records.length < 5 := by
  decide

/-- Claim C3 (amended): for a driver whose reported height never changes,
which reports at least one visible unit each iteration (so the unit wait
does not time out), and where fewer than MaxResults records accumulate, the
loop returns normally after exactly 5 consecutive no-growth scroll attempts:
it is still running after each of iterations 0..5 and finished with the
stagnation counter at 5 after iteration 6. -/
theorem stagnation_five_attempts (d : Driver) (m j : Nat)
    (hh : ∀ i, d.heights i = d.initialHeight)
    (hc : ∀ i, d.cards i ≠ [])
    (hnav : d.navOk = true)
    (hrec : ∀ k, k ≤ 5 → (run d m k).records.length < m)
    (hj : j ≤ 5) :
    (run d m 6).isFinished = true ∧ (run d m 6).attempts = 5 ∧
    (run d m j).isRunning = true := by
  obtain ⟨s5, h5, ha5, _, _⟩ := stagnant_run d m hh hc hnav hrec 5 (le_refl 5)
  have hfin : run d m 6 = Config.finished s5 true := by
    rw [run_succ, h5]
    simp [step, ha5]
  obtain ⟨sj, hjr, _, _, _⟩ := stagnant_run d m hh hc hnav hrec j hj
  exact ⟨by simp [hfin, Config.isFinished],
         by simp [hfin, Config.attempts, ha5],
         by simp [hjr, Config.isRunning]⟩

/-- Witness for `stagnation_five_attempts`: one nameless unit always visible,
constant height, cap 1. -/
theorem stagnation_five_attempts_witness :
    (run fixtureNameless 1 6).isFinished = true ∧
    (run fixtureNameless 1 6).attempts = 5 ∧
    (run fixtureNameless 1 5).isRunning = true :=
  stagnation_five_attempts fixtureNameless 1 5 (fun _ => rfl)
    (fun _ => List.cons_ne_nil _ _) rfl (by decide) (by decide)

/-- Claim C4 (the code contradicts it): a driver reporting zero visible
units on every iteration (constant height) does not make the scrape return
an empty sequence via the stagnation path — the unit wait raises a timeout
on the first iteration, the error propagates, and the session is left
open. -/
theorem zero_units_raises :
    run fixtureEmpty 100 1 = Config.failed ScrapeError.waitTimeout false ∧
    (run fixtureEmpty 100 1).records = [] ∧
    (run fixtureEmpty 100 1).sessionClosed = false := by
  decide

/-- Claim C5 (amended): on the normal completion exit paths — cap reached or
stagnation — the session driver is closed (`driver.quit()`) before control
returns; on every fault exit after the session is opened the exception
propagates without closing it (there is no try/finally). -/
theorem session_closed_iff_normal_exit (d : Driver) (m n : Nat) :
    ((run d m n).isFinished = true → (run d m n).sessionClosed = true) ∧
    ((run d m n).isFailed = true → (run d m n).sessionClosed = false) :=
  ⟨finished_closed d m n, failed_not_closed d m n⟩

/-- Witness for `session_closed_iff_normal_exit`: the cap run closes the
session; the failed-navigation run leaks it. -/
theorem session_closed_iff_normal_exit_witness :
    (run fixtureCap 2 2).sessionClosed = true ∧
    (run fixtureNavFail 2 0).sessionClosed = false :=
  ⟨(session_closed_iff_normal_exit fixtureCap 2 2).1 (by decide),
   (session_closed_iff_normal_exit fixtureNavFail 2 0).2 (by decide)⟩

/-- Claim C5 counterexample: a navigation failure raised after the session
is opened propagates with the session still open — an exit path that leaks
the session, refuting "closed on every exit path". -/
theorem session_leak_counterexample :
    run fixtureNavFail 5 1 = Config.failed ScrapeError.navFailure false ∧
    (run fixtureNavFail 5 1).sessionClosed = false := by
  decide

/-- Claim C6: a unit whose Name lookup yields a non-empty value produces a
record with Name populated, whatever subset of the six optional lookups
fails; each optional field is the output of the resilient extractor
(`extract_element` / `extract_attribute`), which maps a failed lookup to the
unset value `none` instead of propagating a failure. -/
theorem field_resilience (c : Card) (s : String)
    (hname : c.nameText = some s) (hs : s ≠ "") :
    extractRecord c = some
      { Name := s
        Rating := extract_element c.rating
        Reviews := extract_element c.reviews
        Category := extract_element c.category
        Address := extract_element c.address
        Website := extract_attribute c.websiteHref
        Phone := extract_element c.phone } ∧
    (c.rating = none → extract_element c.rating = none) ∧
    (c.reviews = none → extract_element c.reviews = none) ∧
    (c.category = none → extract_element c.category = none) ∧
    (c.address = none → extract_element c.address = none) ∧
    (c.websiteHref = none → extract_attribute c.websiteHref = none) ∧
    (c.phone = none → extract_element c.phone = none) := by
  refine ⟨by simp [extractRecord, hname, hs], ?_, ?_, ?_, ?_, ?_, ?_⟩
  all_goals intro h
  all_goals simp [extract_element, extract_attribute, h]

/-- Witness for `field_resilience`: a card with name `"A"` and every
optional lookup failing yields a record with Name `"A"` and all optional
fields unset. -/
theorem field_resilience_witness :
    extractRecord cardA = some
      { Name := "A"
        Rating := extract_element cardA.rating
        Reviews := extract_element cardA.reviews
        Category := extract_element cardA.category
        Address := extract_element cardA.address
        Website := extract_attribute cardA.websiteHref
        Phone := extract_element cardA.phone } ∧
    (cardA.rating = none → extract_element cardA.rating = none) ∧
    (cardA.reviews = none → extract_element cardA.reviews = none) ∧
    (cardA.category = none → extract_element cardA.category = none) ∧
    (cardA.address = none → extract_element cardA.address = none) ∧
    (cardA.websiteHref = none → extract_attribute cardA.websiteHref = none) ∧
    (cardA.phone = none → extract_element cardA.phone = none) :=
  field_resilience cardA "A" rfl (by decide)

/-- Claim C7: every record in the output of any scrape has a non-empty
Name, and a unit whose Name lookup fails or yields the empty string is
skipped entirely — it contributes no record. -/
theorem output_names_nonempty (d : Driver) (m n : Nat) (r : BusinessRecord)
    (hr : r ∈ (run d m n).records) (c : Card)
    (hc : c.nameText = none ∨ c.nameText = some "") :
    r.Name ≠ "" ∧ extractRecord c = none := by
  refine ⟨records_name_nonempty d m n r hr, ?_⟩
  rcases hc with h | h <;> simp [extractRecord, h]

/-- Witness for `output_names_nonempty`: the single record scraped from
`fixtureOneCard` has the non-empty name `"A"`, and the nameless card is
skipped. -/
theorem output_names_nonempty_witness :
    ({ Name := "A", Rating := none, Reviews := none, Category := none,
       Address := none, Website := none, Phone := none } : BusinessRecord).Name ≠ "" ∧
    extractRecord cardNoName = none :=
  output_names_nonempty fixtureOneCard 5 1 _ (by decide) cardNoName (Or.inl rfl)

/-! ### C8: query URL construction -/

lemma replaceSpaces_eq (cs : List Char) :
    replaceSpaces cs = percentEncodeSpacesL cs := by
  induction cs with
  | nil => rfl
  | cons c cs ih =>
    simp only [replaceSpaces, percentEncodeSpacesL, List.map_cons, List.flatten_cons]
    rw [ih]
    rfl

lemma space_not_mem_replaceSpaces (cs : List Char) : ' ' ∉ replaceSpaces cs := by
  induction cs with
  | nil => simp [replaceSpaces]
  | cons c cs ih =>
    by_cases h : c = ' '
    · simp only [replaceSpaces, if_pos h, List.mem_append]
      rintro (hmem | hmem)
      · simp at hmem
      · exact ih hmem
    · simp only [replaceSpaces, if_neg h, List.mem_append]
      rintro (hmem | hmem)
      · simp at hmem
        exact h hmem.symm
      · exact ih hmem

/-- Claim C8: the navigated URL is the fixed search base, followed by the
string `"keyword in location"` with every space percent-encoded as `%20`,
followed by a trailing slash; in particular the URL contains no space and
nothing else is appended (no further query parameters). -/
theorem query_url_construction (keyword location : String) :
    search_url keyword location =
      "https://www.google.com/maps/search/" ++
        String.mk (percentEncodeSpacesL (keyword ++ " in " ++ location).data) ++ "/" ∧
    ' ' ∉ (search_url keyword location).data := by
  constructor
  · unfold search_url
    rw [replaceSpaces_eq]
  · unfold search_url
    rw [String.data_append, String.data_append]
    simp only [List.mem_append]
    rintro ((hmem | hmem) | hmem)
    · revert hmem
      decide
    · exact space_not_mem_replaceSpaces _ hmem
    · revert hmem
      decide

/-! ### C10: license round trip -/

/-- Claim C10: `generate_key` returns the supplied (opaque, random-derived)
key together with an expiry equal to the current date plus `duration` days,
and stores that mapping; `validate_key` on that key, at any time whose date
is before the expiry date, returns `(true, expiry)`; `validate_key` on a
key absent from the store returns `(false, none)`. -/
theorem license_round_trip (st : String → Option Nat) (now duration nowv : Nat)
    (key bad : String) (_hd : 1 ≤ duration)
    (hbefore : dayOf nowv < dayOf now + duration) (hbad : st bad = none) :
    (generate_key st now duration key).1 = key ∧
    (generate_key st now duration key).2.1 = dayOf now + duration ∧
    (generate_key st now duration key).2.2 key = some (dayOf now + duration) ∧
    validate_key (generate_key st now duration key).2.2 nowv key =
      (true, some (dayOf now + duration)) ∧
    validate_key st nowv bad = (false, none) := by
  have hday : dayOf (now + duration * 86400) = dayOf now + duration := by
    unfold dayOf
    exact Nat.add_mul_div_right now duration (by norm_num)
  have hlt : nowv < (dayOf now + duration) * 86400 := by
    have := (Nat.div_lt_iff_lt_mul (show 0 < 86400 by norm_num)).mp hbefore
    exact this
  refine ⟨rfl, by simpa [generate_key] using hday, by simp [generate_key, hday], ?_, ?_⟩
  · simp [validate_key, generate_key, hday, hlt]
  · simp [validate_key, hbad]

/-- Witness for `license_round_trip`: an empty store, a 30-day key generated
at time 100000 and validated at time 200000 (day 2 < expiry day 31). -/
theorem license_round_trip_witness :
    (generate_key (fun _ => none) 100000 30 "k").1 = "k" ∧
    (generate_key (fun _ => none) 100000 30 "k").2.1 = dayOf 100000 + 30 ∧
    (generate_key (fun _ => none) 100000 30 "k").2.2 "k" = some (dayOf 100000 + 30) ∧
    validate_key (generate_key (fun _ => none) 100000 30 "k").2.2 200000 "k" =
      (true, some (dayOf 100000 + 30)) ∧
    validate_key (fun _ => none) 200000 "x" = (false, none) :=
  license_round_trip (fun _ => none) 100000 30 200000 "k" "x" (by decide)
    (by decide) rfl

/-! ### C9: termination under eventually-constant height -/

lemma isRunning_elim (c : Config) (h : c.isRunning = true) :
    ∃ s, c = Config.running s := by
  cases c with
  | running s => exact ⟨s, rfl⟩
  | finished s b => simp [Config.isRunning] at h
  | failed e b => simp [Config.isRunning] at h

lemma running_of_succ (d : Driver) (m n : Nat)
    (h : (run d m (n + 1)).isRunning = true) : (run d m n).isRunning = true := by
  cases hb : (run d m n).isRunning with
  | true => rfl
  | false =>
    rw [run_succ, step_of_not_running d m _ hb] at h
    simp [h] at hb

lemma step_running_elim (d : Driver) (m : Nat) (s s' : LoopState)
    (h : step d m (Config.running s) = Config.running s') :
    (s.businesses.length < m ∧ s.scrollAttempts < 5) ∧
    s' = { businesses := processCards m s.businesses
             ((d.cards s.iter).drop s.businesses.length)
           lastHeight := d.heights s.iter
           scrollAttempts :=
             if d.heights s.iter = s.lastHeight then s.scrollAttempts + 1 else 0
           iter := s.iter + 1 } := by
  by_cases hcond : s.businesses.length < m ∧ s.scrollAttempts < 5
  · cases hcs : d.cards s.iter with
    | nil => simp [step, hcond, hcs, waitCards] at h
    | cons c0 rest =>
      refine ⟨hcond, ?_⟩
      rw [show step d m (Config.running s) = Config.running
          { businesses := processCards m s.businesses
              ((c0 :: rest).drop s.businesses.length)
            lastHeight := d.heights s.iter
            scrollAttempts :=
              if d.heights s.iter = s.lastHeight then s.scrollAttempts + 1 else 0
            iter := s.iter + 1 } by simp [step, hcond, hcs, waitCards]] at h
      exact (Config.running.inj h).symm
  · simp [step, hcond] at h

lemma run_iter_eq (d : Driver) (m : Nat) :
    ∀ n, (run d m n).isRunning = true → (run d m n).iterIdx = n := by
  intro n
  induction n with
  | zero =>
    intro _
    show (initConfig d).iterIdx = 0
    unfold initConfig
    by_cases hn : d.navOk <;> simp [hn, Config.iterIdx]
  | succ n ih =>
    intro h
    have hrn := running_of_succ d m n h
    obtain ⟨s, hs⟩ := isRunning_elim _ hrn
    obtain ⟨s', hs'⟩ := isRunning_elim _ h
    have hstep : step d m (Config.running s) = Config.running s' := by
      rw [← hs, ← run_succ]
      exact hs'
    obtain ⟨-, heq⟩ := step_running_elim d m s s' hstep
    have hit : s.iter = n := by
      have h2 := ih hrn
      rw [hs] at h2
      simpa [Config.iterIdx] using h2
    rw [hs', heq]
    simp [Config.iterIdx, hit]

lemma run_lastH (d : Driver) (m n : Nat)
    (h : (run d m (n + 1)).isRunning = true) :
    (run d m (n + 1)).lastH = d.heights n := by
  have hrn := running_of_succ d m n h
  obtain ⟨s, hs⟩ := isRunning_elim _ hrn
  obtain ⟨s', hs'⟩ := isRunning_elim _ h
  have hstep : step d m (Config.running s) = Config.running s' := by
    rw [← hs, ← run_succ]
    exact hs'
  obtain ⟨-, heq⟩ := step_running_elim d m s s' hstep
  have hit : s.iter = n := by
    have h2 := run_iter_eq d m n hrn
    rw [hs] at h2
    simpa [Config.iterIdx] using h2
  rw [hs', heq]
  simp [Config.lastH, hit]

lemma attempts_succ (d : Driver) (m n : Nat)
    (h : (run d m (n + 1)).isRunning = true)
    (hheq : d.heights n = (run d m n).lastH) :
    (run d m (n + 1)).attempts = (run d m n).attempts + 1 := by
  have hrn := running_of_succ d m n h
  obtain ⟨s, hs⟩ := isRunning_elim _ hrn
  obtain ⟨s', hs'⟩ := isRunning_elim _ h
  have hstep : step d m (Config.running s) = Config.running s' := by
    rw [← hs, ← run_succ]
    exact hs'
  obtain ⟨-, heq⟩ := step_running_elim d m s s' hstep
  have hit : s.iter = n := by
    have h2 := run_iter_eq d m n hrn
    rw [hs] at h2
    simpa [Config.iterIdx] using h2
  rw [hs] at hheq
  simp only [Config.lastH] at hheq
  rw [hs', heq, hs]
  simp [Config.attempts, hit, hheq]

/-- Claim C9: when the reported height is constant from iteration `N` on
(and the extractable units never reach MaxResults), the loop cannot run
forever: by iteration `N + 7` it has left the running state — the bounded
stagnation threshold is an iteration ceiling. -/
theorem bounded_stagnation_terminates (d : Driver) (m N : Nat)
    (hh : ∀ i, N ≤ i → d.heights i = d.heights N)
    (_hrec : ∀ k, k ≤ N + 7 → (run d m k).records.length < m) :
    (run d m (N + 7)).isRunning = false := by
  have chain : ∀ j, j ≤ 5 → (run d m (N + 1 + j)).isRunning = true →
      j ≤ (run d m (N + 1 + j)).attempts := by
    intro j
    induction j with
    | zero => intro _ _; exact Nat.zero_le _
    | succ j ih =>
      intro hj5 hrun
      have hshift : N + 1 + (j + 1) = N + 1 + j + 1 := by omega
      rw [hshift] at hrun
      have hrun' : (run d m (N + 1 + j)).isRunning = true :=
        running_of_succ d m _ hrun
      have hlast : (run d m (N + 1 + j)).lastH = d.heights (N + j) := by
        rw [show N + 1 + j = N + j + 1 by omega] at hrun' ⊢
        exact run_lastH d m (N + j) hrun'
      have hstep : (run d m (N + 1 + j + 1)).attempts =
          (run d m (N + 1 + j)).attempts + 1 := by
        apply attempts_succ d m (N + 1 + j) hrun
        rw [hlast, hh (N + 1 + j) (by omega), hh (N + j) (by omega)]
      have hchain := ih (by omega) hrun'
      rw [hshift, hstep]
      omega
  cases hb : (run d m (N + 7)).isRunning with
  | false => rfl
  | true =>
    exfalso
    rw [show N + 7 = N + 6 + 1 by omega] at hb
    have h6 : (run d m (N + 6)).isRunning = true := running_of_succ d m _ hb
    have h5le : 5 ≤ (run d m (N + 6)).attempts := by
      have hc := chain 5 (le_refl 5)
      rw [show N + 1 + 5 = N + 6 by omega] at hc
      exact hc h6
    have hatt5 : (run d m (N + 6)).attempts = 5 :=
      le_antisymm (attempts_le d m (N + 6)) h5le
    obtain ⟨s, hs⟩ := isRunning_elim _ h6
    have hs5 : s.scrollAttempts = 5 := by
      rw [hs] at hatt5
      simpa [Config.attempts] using hatt5
    have hfin : run d m (N + 6 + 1) = Config.finished s true := by
      rw [run_succ, hs]
      simp [step, hs5]
    rw [hfin] at hb
    simp [Config.isRunning] at hb

/-- Witness for `bounded_stagnation_terminates`: constant height, one
nameless unit, cap 1, `N = 0` — the loop has stopped by iteration 7. -/
theorem bounded_stagnation_terminates_witness :
    (run fixtureNameless 1 (0 + 7)).isRunning = false :=
  bounded_stagnation_terminates fixtureNameless 1 0 (fun _ _ => rfl) (by decide)

/-! ### C2 (amended): first-seen-order extraction when every unit is named -/

lemma isFailed_elim (c : Config) (h : c.isFailed = true) :
    ∃ e b, c = Config.failed e b := by
  cases c with
  | running s => simp [Config.isFailed] at h
  | finished s b => simp [Config.isFailed] at h
  | failed e b => exact ⟨e, b, rfl⟩

lemma failed_absorb (d : Driver) (m n : Nat)
    (h : (run d m n).isFailed = true) : (run d m (n + 1)).isFailed = true := by
  obtain ⟨e, b, heb⟩ := isFailed_elim _ h
  rw [run_succ, heb]
  rfl

lemma prevCards_append (d : Driver)
    (hg : ∀ i, ∃ t, d.cards (i + 1) = d.cards i ++ t) :
    ∀ i, ∃ t, d.cards i = prevCards d i ++ t := by
  intro i
  cases i with
  | zero => exact ⟨d.cards 0, rfl⟩
  | succ j => exact hg j

lemma processCards_named (m : Nat) :
    ∀ (cs : List Card) (acc : List BusinessRecord),
      (∀ c ∈ cs, (extractRecord c).isSome = true) →
      ∃ j, j ≤ cs.length ∧
        processCards m acc cs = acc ++ List.filterMap extractRecord (cs.take j) ∧
        (List.filterMap extractRecord (cs.take j)).length = j := by
  intro cs
  induction cs with
  | nil => intro acc _; exact ⟨0, by simp [processCards]⟩
  | cons c rest ih =>
    intro acc hnamed
    have hc : (extractRecord c).isSome = true := hnamed c (List.mem_cons_self _ _)
    obtain ⟨r, hr⟩ := Option.isSome_iff_exists.mp hc
    by_cases hcap : m ≤ acc.length + 1
    · refine ⟨1, by simp, ?_, ?_⟩
      · rw [show processCards m acc (c :: rest) = acc ++ [r] by
          simp [processCards, hr, hcap]]
        simp [List.filterMap_cons, hr]
      · simp [List.filterMap_cons, hr]
    · obtain ⟨j, hj, heq, hlen⟩ :=
        ih (acc ++ [r]) (fun c1 h1 => hnamed c1 (List.mem_cons_of_mem _ h1))
      refine ⟨j + 1, by simpa using hj, ?_, ?_⟩
      · rw [show processCards m acc (c :: rest) = processCards m (acc ++ [r]) rest by
          simp [processCards, hr, hcap], heq]
        simp [List.take_succ_cons, List.filterMap_cons, hr]
      · simp [List.take_succ_cons, List.filterMap_cons, hr, hlen]

lemma dedup_invariant (d : Driver) (m : Nat)
    (hg : ∀ i, ∃ t, d.cards (i + 1) = d.cards i ++ t)
    (hn : ∀ i, ∀ c ∈ d.cards i, (extractRecord c).isSome = true) :
    ∀ n, (run d m n).isFailed = false →
      (run d m n).records =
        List.filterMap extractRecord
          ((prevCards d (run d m n).iterIdx).take (run d m n).records.length) ∧
      (run d m n).records.length ≤ (prevCards d (run d m n).iterIdx).length := by
  intro n
  induction n with
  | zero =>
    intro _
    have h0 : run d m 0 = initConfig d := rfl
    rw [h0]
    unfold initConfig
    by_cases hnav : d.navOk <;>
      simp [hnav, Config.records, Config.iterIdx, prevCards]
  | succ n ih =>
    intro hf
    have hfn : (run d m n).isFailed = false := by
      cases hbf : (run d m n).isFailed with
      | false => rfl
      | true => rw [failed_absorb d m n hbf] at hf; cases hf
    obtain ⟨hrec, hlen⟩ := ih hfn
    rw [run_succ]
    cases hc : run d m n with
    | running s =>
      rw [hc] at hrec hlen
      simp only [Config.records, Config.iterIdx] at hrec hlen
      by_cases hcond : s.businesses.length < m ∧ s.scrollAttempts < 5
      · cases hcs : d.cards s.iter with
        | nil =>
          exfalso
          rw [run_succ, hc] at hf
          simp [step, hcond, hcs, waitCards, Config.isFailed] at hf
        | cons c0 rest =>
          rw [show step d m (Config.running s) = Config.running
              { businesses := processCards m s.businesses
                  ((c0 :: rest).drop s.businesses.length)
                lastHeight := d.heights s.iter
                scrollAttempts :=
                  if d.heights s.iter = s.lastHeight then s.scrollAttempts + 1 else 0
                iter := s.iter + 1 } by simp [step, hcond, hcs, waitCards]]
          simp only [Config.records, Config.iterIdx]
          rw [← hcs]
          obtain ⟨t, ht⟩ := prevCards_append d hg s.iter
          have hLcs : s.businesses.length ≤ (d.cards s.iter).length := by
            rw [ht]
            simp only [List.length_append]
            omega
          obtain ⟨j, hjle, heq, hflen⟩ :=
            processCards_named m ((d.cards s.iter).drop s.businesses.length)
              s.businesses
              (fun c1 h1 => hn s.iter c1 (List.drop_subset _ _ h1))
          rw [heq]
          have htake : (d.cards s.iter).take s.businesses.length =
              (prevCards d s.iter).take s.businesses.length := by
            rw [ht, List.take_append_eq_append_take,
              Nat.sub_eq_zero_of_le hlen, List.take_zero, List.append_nil]
          constructor
          · have hprev : prevCards d (s.iter + 1) = d.cards s.iter := rfl
            have hlen2 : (s.businesses ++
                List.filterMap extractRecord
                  (((d.cards s.iter).drop s.businesses.length).take j)).length =
                s.businesses.length + j := by
              simp [hflen]
            rw [hprev, hlen2, List.take_add, List.filterMap_append, htake, ← hrec]
          · simp only [List.length_append, hflen]
            rw [List.length_drop] at hjle
            show s.businesses.length + j ≤ (prevCards d (s.iter + 1)).length
            have : prevCards d (s.iter + 1) = d.cards s.iter := rfl
            rw [this]
            omega
      · rw [show step d m (Config.running s) = Config.finished s true by
          simp [step, hcond]]
        simp only [Config.records, Config.iterIdx]
        exact ⟨hrec, hlen⟩
    | finished s b =>
      rw [hc] at hrec hlen
      exact ⟨hrec, hlen⟩
    | failed e b =>
      rw [hc] at hfn
      simp [Config.isFailed] at hfn

/-- Claim C2 (amended): for a session driver whose visible-unit list only
grows across iterations and all of whose units carry a Name (so every
examined unit produces a record), the output at any non-failed point is the
extraction, in first-seen order, of an initial segment of the most recently
read visible-unit list — each unit is extracted at most once.  (The code
indexes the slice by the count of accumulated records, which coincides with
the count of examined units exactly when no unit was skipped; the original
claim fails for nameless units, see the counterexample.) -/
theorem dedup_first_seen (d : Driver) (m n : Nat)
    (hg : ∀ i, ∃ t, d.cards (i + 1) = d.cards i ++ t)
    (hn : ∀ i, ∀ c ∈ d.cards i, (extractRecord c).isSome = true)
    (hf : (run d m n).isFailed = false) :
    (run d m n).records =
      List.filterMap extractRecord
        ((prevCards d (run d m n).iterIdx).take (run d m n).records.length) ∧
    (run d m n).records.length ≤ (prevCards d (run d m n).iterIdx).length :=
  dedup_invariant d m hg hn n hf

/-- Witness for `dedup_first_seen`: one named unit always visible — after
one iteration the output is the extraction of the one-card visible list. -/
theorem dedup_first_seen_witness :
    (run fixtureOneCard 5 1).records =
      List.filterMap extractRecord
        ((prevCards fixtureOneCard (run fixtureOneCard 5 1).iterIdx).take
          (run fixtureOneCard 5 1).records.length) ∧
    (run fixtureOneCard 5 1).records.length ≤
      (prevCards fixtureOneCard (run fixtureOneCard 5 1).iterIdx).length :=
  dedup_first_seen fixtureOneCard 5 1 (fun _ => ⟨[], rfl⟩)
    (fun i c hc => by
      rw [List.mem_singleton.mp hc]
      rfl)
    (by decide)

end Scrapper
